import Mathlib

/-!
Verification development for the tierkreis TKSL front-end compiler
(`tierkreis/frontend/tksl/antlr_test.py`): a shallow embedding of the
lowering visitor `TkslTopVisitor` and of the graph IR it emits, together
with theorems settling the specified properties of name resolution,
port wiring, nested-graph construction and error behaviour.

Python dictionaries are modelled as association lists with
insert-or-replace semantics (Python dicts preserve insertion order and
replace the value in place on re-assignment).  Machine integers are
modelled as `Int` (Python integers are unbounded).  Python exceptions
(`KeyError`, `IndexError`, `RuntimeError`, failed `assert`) are modelled
with `Except` over an explicit error type.
-/

namespace Tksl

/-- Lookup in a Python-dict association list (keys are unique). -/
def pyLookup {α : Type} : List (String × α) → String → Option α
  | [], _ => none
  | (k, v) :: rest, key => if k = key then some v else pyLookup rest key

/-- Python `key in dict` membership test. -/
def pyMem {α : Type} (d : List (String × α)) (key : String) : Bool :=
  (pyLookup d key).isSome

/-- Python `dict[key] = value`: replace in place if present, else append. -/
def pyInsert {α : Type} : List (String × α) → String → α → List (String × α)
  | [], key, v => [(key, v)]
  | (k, w) :: rest, key, v =>
    if k = key then (k, v) :: rest else (k, w) :: pyInsert rest key v

/-- Python `dict(pairs)` / `OrderedDict(pairs)`: left fold of insertion. -/
def pyDict {α : Type} (pairs : List (String × α)) : List (String × α) :=
  pairs.foldl (fun d p => pyInsert d p.1 p.2) []

/-- Keys of a dict, in insertion order (Python `list(d)`). -/
def pyKeys {α : Type} (d : List (String × α)) : List String :=
  d.map Prod.fst

/-- Python `set(a).union(b)` of two port-name lists.  A Python `set`
iterates in an unspecified order; we fix first-occurrence order and all
theorems treat the result up to membership only. -/
def pyUnion (a b : List String) : List String :=
  a ++ b.filter (fun x => ¬ a.contains x)

/-- Errors raised by the visitor.  Each constructor records the Python
exception it models:
* `nameNotInScope n` — `RuntimeError("Name not found in scope: n.")`;
* `unknownFunction n` — `RuntimeError("Function name not found: n")`;
* `keyError k` — Python `KeyError` from a raw dict subscript;
* `indexError` — Python `IndexError` from `[0]` on an empty list;
* `assertionError` — a failed `assert`;
* `runtimeError` — a bare `raise RuntimeError()`. -/
inductive Err where
  | nameNotInScope (name : String)
  | unknownFunction (name : String)
  | keyError (key : String)
  | indexError
  | assertionError
  | runtimeError
  deriving DecidableEq, Repr

/-- A node reference: nodes are numbered in creation order.
Modelled from the spec: `NodeRef` is an opaque node identifier. -/
abbrev NodeRef := Nat

/-- Model of `NodePort(node, port)`: a named output (or input) slot of a node. -/
structure NodePort where
  node : NodeRef
  port : String
  deriving DecidableEq, Repr

/-- A directed edge from a source port to a target port. -/
structure TkEdge where
  source : NodePort
  target : NodePort
  deriving DecidableEq, Repr

/-- The IR's type language (`tierkreis.core.types`).  `graphT` carries
the input and output rows of a graph type. -/
inductive TierkreisType where
  | intT
  | boolT
  | floatT
  | strT
  | pairT (first second : TierkreisType)
  | vecT (element : TierkreisType)
  | mapT (key val : TierkreisType)
  | structT (fields : List (String × TierkreisType))
  | graphT (inputs outputs : List (String × TierkreisType))
  | varT (name : String)

/-- Model of `GraphType(inputs=Row(..), outputs=Row(..))`: the two rows of a
graph type, each an ordered mapping of port name to type. -/
structure GraphType where
  inputs : List (String × TierkreisType)
  outputs : List (String × TierkreisType)

/-- A signature-catalog entry (`TierkreisFunction`): canonical name plus
ordered input and output port names.  The type scheme is opaque to the
lowering and omitted. -/
structure TierkreisFunction where
  name : String
  input_order : List String
  output_order : List String
  deriving DecidableEq, Repr

/-- Model of `FunctionDefinition(inputs, outputs, graph_type)` from the source. -/
structure FunctionDefinition where
  inputs : List String
  outputs : List String
  graph_type : Option GraphType := none

/-- Model of `def_from_tkfunc`: forget everything but the port orders. -/
def def_from_tkfunc (func : TierkreisFunction) : FunctionDefinition :=
  { inputs := func.input_order, outputs := func.output_order }

/-- Model of `RuntimeSignature = Dict[str, Dict[str, TierkreisFunction]]`. -/
abbrev RuntimeSignature := List (String × List (String × TierkreisFunction))

/-- Two-level signature lookup `sig[namespace][name]`. -/
def sigLookup (sig : RuntimeSignature) (ns name : String) :
    Option TierkreisFunction := do
  let nsDict ← pyLookup sig ns
  pyLookup nsDict name

mutual
/-- A constant value carried by a constant node.  Graph values make this
mutually recursive with `Graph`. -/
inductive TkValue where
  | intV (n : Int)
  | boolV (b : Bool)
  | floatV (x : Float)
  | strV (s : String)
  | vecV (elems : List TkValue)
  | structV (fields : List (String × TkValue))
  | graphV (g : Graph)

/-- A graph node.  Modelled from the spec: the missing library class
`TierkreisGraph` has two distinguished boundary nodes, plain operation
nodes, constant nodes (single output port `value`), and boxed nodes
carrying a locally defined sub-graph. -/
inductive TkNode where
  | inputNode
  | outputNode
  | opNode (name : String)
  | constNode (v : TkValue)
  | boxNode (name : String) (g : Graph)

/-- Modelled from the spec: the missing library class `TierkreisGraph`.
A graph is a list of nodes (indexed by creation order; index 0 is the
boundary input node, index 1 the boundary output node) and a list of
edges in creation order. -/
inductive Graph where
  | mk (nodes : List TkNode) (edges : List TkEdge)
end

def Graph.nodes : Graph → List TkNode
  | .mk ns _ => ns

def Graph.edges : Graph → List TkEdge
  | .mk _ es => es

/-- A fresh `TierkreisGraph()`: just the two boundary nodes. -/
def Graph.empty : Graph := .mk [.inputNode, .outputNode] []

/-- Index of the boundary input node. -/
def inputNodeRef : NodeRef := 0

/-- Index of the boundary output node. -/
def outputNodeRef : NodeRef := 1

/-- Model of `graph.input[name]`: the boundary input port of that name. -/
def Graph.inputPort (_ : Graph) (name : String) : NodePort :=
  ⟨inputNodeRef, name⟩

/-- Append a node, returning the new graph and the node's reference. -/
def Graph.addNodeRaw (g : Graph) (n : TkNode) : Graph × NodeRef :=
  (.mk (g.nodes ++ [n]) g.edges, g.nodes.length)

/-- Append an edge. -/
def Graph.addEdge (g : Graph) (e : TkEdge) : Graph :=
  .mk g.nodes (g.edges ++ [e])

/-- Model of `graph.add_const(value)`: a constant node with output port `value`. -/
def Graph.add_const (g : Graph) (v : TkValue) : Graph × NodeRef :=
  g.addNodeRaw (.constNode v)

/-- An incoming wire for a node input port: either an existing node
port, or a raw value (materialized as a constant node). -/
inductive Incoming where
  | port (p : NodePort)
  | value (v : TkValue)

/-- Wire keyword arguments into the input ports of node `target`.
Modelled from the spec: a raw value passed as a node input is
materialized as a dedicated constant node whose single output port
`value` is wired to the target port. -/
def Graph.wireKwargs (g : Graph) (target : NodeRef)
    (kwargs : List (String × Incoming)) : Graph :=
  kwargs.foldl
    (fun g kw =>
      match kw.2 with
      | .port p => g.addEdge ⟨p, ⟨target, kw.1⟩⟩
      | .value v =>
        let (g1, c) := g.add_const v
        g1.addEdge ⟨⟨c, "value"⟩, ⟨target, kw.1⟩⟩)
    g

/-- Model of `graph.add_node(name, **kwargs)`. -/
def Graph.add_node (g : Graph) (name : String)
    (kwargs : List (String × Incoming)) : Graph × NodeRef :=
  let (g1, n) := g.addNodeRaw (.opNode name)
  (g1.wireKwargs n kwargs, n)

/-- Model of `graph.add_box(subgraph, name, **kwargs)`. -/
def Graph.add_box (g : Graph) (sub : Graph) (name : String)
    (kwargs : List (String × Incoming)) : Graph × NodeRef :=
  let (g1, n) := g.addNodeRaw (.boxNode name sub)
  (g1.wireKwargs n kwargs, n)

/-- Model of `graph.set_outputs(**kwargs)`: wire ports into the boundary output
node. -/
def Graph.set_outputs (g : Graph) (kwargs : List (String × NodePort)) :
    Graph :=
  g.wireKwargs outputNodeRef (kwargs.map (fun kw => (kw.1, .port kw.2)))

/-- First-occurrence deduplication, auxiliary: `seen` accumulates the
names already emitted. -/
def firstDedupAux : List String → List String → List String
  | _, [] => []
  | seen, x :: xs =>
    if seen.contains x then firstDedupAux seen xs
    else x :: firstDedupAux (x :: seen) xs

/-- First-occurrence deduplication (Python iteration order of a dict
built by successive insertion). -/
def firstDedup (l : List String) : List String :=
  firstDedupAux [] l

/-- Model of `graph.outputs()`: the port names of the boundary output node,
derived from the edges wired into it. -/
def Graph.outputs (g : Graph) : List String :=
  firstDedup (g.edges.filterMap
    (fun e => if e.target.node = outputNodeRef then some e.target.port else none))

/-- Model of `graph.inputs()`: the port names of the boundary input node,
derived from the edges leaving it. -/
def Graph.inputs (g : Graph) : List String :=
  firstDedup (g.edges.filterMap
    (fun e => if e.source.node = inputNodeRef then some e.source.port else none))

/-- Model of `make_outports(node_ref, ports)`. -/
def make_outports (node_ref : NodeRef) (ports : List String) :
    List NodePort :=
  ports.map (fun outport => ⟨node_ref, outport⟩)

/-- The per-graph symbol table (`Context`).  `inputs`/`outputs` map port
names to optional types (`PortMap`); `functions` maps a local function
name to its lowered graph and definition. -/
structure Context where
  functions : List (String × (Graph × FunctionDefinition)) := []
  output_vars : List (String × (NodeRef × FunctionDefinition)) := []
  constants : List (String × NodeRef) := []
  inputs : List (String × Option TierkreisType) := []
  outputs : List (String × Option TierkreisType) := []
  aliases : List (String × TierkreisType) := []

/-- The visitor's mutable state: `self.context` and `self.graph`.
`Context.copy()` is a deep copy in the source, so constructing a new
visitor from a context is modelled by plain value passing. -/
structure VisitorState where
  context : Context
  graph : Graph

/- ===================  Source-language AST  =================== -/

/-- Source type expressions.  `otherT` is any type token not handled by
a branch of `visitType_` (the fallthrough produces `VarType("unkown")`,
spelling as in the source). -/
inductive TypeExpr where
  | intT
  | boolT
  | strT
  | floatT
  | pairT (first second : TypeExpr)
  | mapT (key val : TypeExpr)
  | vecT (element : TypeExpr)
  | structT (fields : List (String × TypeExpr))
  | graphT (inputs outputs : List (String × TypeExpr))
  | aliasRef (name : String)
  | otherT

/-- Source constant literals (`const_` rule).  The struct id of a
struct literal is parsed but ignored by `visitConst_`. -/
inductive ConstVal where
  | intC (n : Int)
  | boolC (b : Bool)
  | floatC (x : Float)
  | strC (s : String)
  | vecC (elems : List ConstVal)
  | structC (sid : Option String) (fields : List (String × ConstVal))

/-- Model of `thunkable_port`: an explicit `var.port` label or a bare
identifier. -/
inductive ThunkablePort where
  | portLabel (var port : String)
  | ident (name : String)

/-- A possibly namespace-qualified function name (`f_name` rule); an
absent namespace defaults to `builtin`. -/
structure FName where
  nspace : Option String
  fname : String

mutual
/-- An outport source (`outport` rule): a thunkable port, a nested call
(`node_inputs`), or an inline constant. -/
inductive Outport where
  | thunkable (t : ThunkablePort)
  | nested (n : NodeInputs)
  | constO (c : ConstVal)

/-- Model of `node_inputs`: a function call or a thunk application `!expr(...)`. -/
inductive NodeInputs where
  | funcCall (fn : FName) (args : Arglist)
  | thunk (t : ThunkablePort) (args : Option (List (String × Outport)))

/-- Model of `arglist`: a named map, a positional list, or empty (the grammar's
ε alternative, on which `visitArglist` raises `RuntimeError`). -/
inductive Arglist where
  | named (m : List (String × Outport))
  | positional (args : List Outport)
  | emptyA
end

/-- Instructions of a code block. -/
inductive Inst where
  | callMap (target : String) (call : NodeInputs)
  | outputCall (args : Arglist)
  | constDecl (target : String) (c : ConstVal)
  | ifBlock (target : String) (condition : Outport)
      (inputs : Option (List (String × Outport)))
      (if_block else_block : List Inst)
  | loopInst (target : String)
      (inputs : Option (List (String × Outport)))
      (body condition : List Inst)
  | edgeInst (source target : String × String)

/-- Top-level declarations. -/
inductive Decl where
  | typeAlias (name : String) (t : TypeExpr)
  | funcDef (name : String)
      (gt_inputs gt_outputs : List (String × TypeExpr))
      (body : List Inst)

/- ===================  Constant and type visitors  =================== -/

mutual
/-- Model of `visitConst_`: evaluate a literal to the value stored in a constant
node.  A struct literal becomes an anonymous struct with the field
insertion order of `dict(...)`. -/
def visitConst_ : ConstVal → TkValue
  | .intC n => .intV n
  | .boolC b => .boolV b
  | .floatC x => .floatV x
  | .strC s => .strV s
  | .vecC elems => .vecV (visitConstList elems)
  | .structC _ fields => .structV (pyDict (visitConstFields fields))

def visitConstList : List ConstVal → List TkValue
  | [] => []
  | c :: rest => visitConst_ c :: visitConstList rest

def visitConstFields : List (String × ConstVal) → List (String × TkValue)
  | [] => []
  | f :: rest => (f.1, visitConst_ f.2) :: visitConstFields rest
end

mutual
/-- Model of `visitType_`: translate a source type expression to an IR type;
an alias reference is looked up in the context's alias table (a raw
dict subscript, so an undefined alias is a `KeyError`). -/
def visitType_ (ctx : Context) : TypeExpr → Except Err TierkreisType
  | .intT => .ok .intT
  | .boolT => .ok .boolT
  | .strT => .ok .strT
  | .floatT => .ok .floatT
  | .pairT a b => do
      pure (.pairT (← visitType_ ctx a) (← visitType_ ctx b))
  | .mapT k v => do
      pure (.mapT (← visitType_ ctx k) (← visitType_ ctx v))
  | .vecT e => do
      pure (.vecT (← visitType_ ctx e))
  | .structT fields => do
      pure (.structT (← visitF_param_list ctx fields))
  | .graphT ins outs => do
      let fd ← visitGraph_type ctx ins outs
      match fd.graph_type with
      | some gt => pure (.graphT gt.inputs gt.outputs)
      | none => .error .assertionError
  | .aliasRef name =>
      match pyLookup ctx.aliases name with
      | some t => .ok t
      | none => .error (.keyError name)
  | .otherT => .ok (.varT "unkown")
termination_by t => (sizeOf t, 0)

/-- Model of `visitF_param`: a single `label: type` parameter. -/
def visitF_param (ctx : Context) (p : String × TypeExpr) :
    Except Err (String × TierkreisType) := do
  pure (p.1, ← visitType_ ctx p.2)
termination_by (sizeOf p, 1)
decreasing_by
  apply Prod.Lex.left
  obtain ⟨a, b⟩ := p
  simp_arith

/-- Model of `visitF_param_list`: an ordered parameter row
(`OrderedDict(map(visitF_param, par_list))`). -/
def visitF_param_list (ctx : Context) (ps : List (String × TypeExpr)) :
    Except Err (List (String × TierkreisType)) := do
  pure (pyDict (← visitF_params ctx ps))
termination_by (sizeOf ps, 2)

def visitF_params (ctx : Context) :
    List (String × TypeExpr) → Except Err (List (String × TierkreisType))
  | [] => .ok []
  | p :: rest => do
      pure ((← visitF_param ctx p) :: (← visitF_params ctx rest))
termination_by ps => (sizeOf ps, 1)

/-- Model of `visitGraph_type`: resolve both parameter rows and return the
`FunctionDefinition` with the declared port-name orders and the
assembled `GraphType`. -/
def visitGraph_type (ctx : Context)
    (gt_inputs gt_outputs : List (String × TypeExpr)) :
    Except Err FunctionDefinition := do
  let inputs ← visitF_param_list ctx gt_inputs
  let outputs ← visitF_param_list ctx gt_outputs
  pure ⟨pyKeys inputs, pyKeys outputs, some ⟨inputs, outputs⟩⟩
termination_by (sizeOf gt_inputs + sizeOf gt_outputs, 3)
decreasing_by
all_goals
  apply Prod.Lex.left
  have h1 : 0 < sizeOf gt_inputs := by cases gt_inputs <;> simp_arith
  have h2 : 0 < sizeOf gt_outputs := by cases gt_outputs <;> simp_arith
  omega
end

/- ===================  Port and name resolution  =================== -/

/-- Model of `visitPort_label`: an explicit `var.port` reference.  `var` is
looked up with a raw dict subscript in `output_vars` (`KeyError` when
absent); the named port of that node is returned with no check that
`port` is among the node's declared output ports. -/
def visitPort_label (ctx : Context) (var_name port_name : String) :
    Except Err NodePort :=
  match pyLookup ctx.output_vars var_name with
  | some nf => .ok ⟨nf.1, port_name⟩
  | none => .error (.keyError var_name)

/-- Model of `visitF_name`: resolve a qualified function name against the
signature catalog (namespace defaulting to `builtin`), falling back to
the local `functions` table, else `Function name not found`. -/
def visitF_name (sig : RuntimeSignature) (ctx : Context) (f : FName) :
    Except Err (String × FunctionDefinition) :=
  let ns := f.nspace.getD "builtin"
  match sigLookup sig ns f.fname with
  | some tkfunc => .ok (tkfunc.name, def_from_tkfunc tkfunc)
  | none =>
    match pyLookup ctx.functions f.fname with
    | some gfd => .ok (f.fname, gfd.2)
    | none => .error (.unknownFunction f.fname)

/-- Model of `visitThunkable_port`: resolve a `var.port` label or a bare
identifier to a list of node ports, in the source's priority order
(inputs, then `output_vars`, then `functions`, then `constants`). -/
def visitThunkable_port (ctx : Context) (g : Graph) :
    ThunkablePort → Except Err (List NodePort × Graph)
  | .portLabel var port => do
      pure ([← visitPort_label ctx var port], g)
  | .ident name =>
    if pyMem ctx.inputs name then .ok ([g.inputPort name], g)
    else match pyLookup ctx.output_vars name with
    | some nf => .ok (make_outports nf.1 nf.2.outputs, g)
    | none =>
      match pyLookup ctx.functions name with
      | some gfd =>
          let (g1, const_node) := g.add_const (.graphV gfd.1)
          .ok ([⟨const_node, "value"⟩], g1)
      | none =>
        match pyLookup ctx.constants name with
        | some c => .ok ([⟨c, "value"⟩], g)
        | none => .error (.nameNotInScope name)

section
variable (sig : RuntimeSignature)

mutual
/-- Model of `visitOutport`: an outport source resolves to a list of node
ports.  A nested call expands to the called node's output ports in
signature order; an inline constant becomes a fresh constant node. -/
def visitOutport (ctx : Context) :
    Outport → Graph → Except Err (List NodePort × Graph)
  | .thunkable t, g => visitThunkable_port ctx g t
  | .nested n, g => do
      let (res, g1) ← visitNodeInputs ctx n g
      pure (make_outports res.1 res.2.outputs, g1)
  | .constO c, g =>
      let (g1, node_ref) := g.add_const (visitConst_ c)
      .ok ([⟨node_ref, "value"⟩], g1)
termination_by o _ => (sizeOf o, 1)

/-- Model of `visitFuncCall` / `visitThunk` (dispatch on `node_inputs`).  A call
to a locally defined function emits a boxed node carrying its graph; a
catalog function emits a plain node under its canonical name.  A thunk
resolves its expression to a single port (`[0]`) and emits a
`builtin/eval` node with `thunk` wired from it. -/
def visitNodeInputs (ctx : Context) :
    NodeInputs → Graph → Except Err ((NodeRef × FunctionDefinition) × Graph)
  | .funcCall fn args, g => do
      let (f_name, f_def) ← visitF_name sig ctx fn
      let (arglist, g1) ← visitArglist ctx args (some f_def.inputs) g
      match pyLookup ctx.functions f_name with
      | some gfd =>
          let (g2, noderef) :=
            g1.add_box gfd.1 f_name (arglist.map fun kw => (kw.1, .port kw.2))
          pure ((noderef, f_def), g2)
      | none =>
          let (g2, noderef) :=
            g1.add_node f_name (arglist.map fun kw => (kw.1, .port kw.2))
          pure ((noderef, f_def), g2)
  | .thunk t args, g => do
      let (outports, g1) ← visitThunkable_port ctx g t
      match outports with
      | [] => .error .indexError
      | outport :: _ => do
        let (arglist, g2) ←
          match args with
          | some m => visitNamed_map ctx m g1
          | none => pure ([], g1)
        let (g3, eval_n) := g2.add_node "builtin/eval"
          (("thunk", .port outport) :: arglist.map fun kw => (kw.1, .port kw.2))
        match sigLookup sig "builtin" "eval" with
        | some f => pure ((eval_n, def_from_tkfunc f), g3)
        | none => .error (.keyError "eval")
termination_by n _ => (sizeOf n, 1)

/-- Model of `visitPort_map`: `port = expr` keeps only the FIRST port `expr`
resolves to (`[0]` in the source; `IndexError` when it resolves to
none). -/
def visitPort_map (ctx : Context) :
    (String × Outport) → Graph → Except Err ((String × NodePort) × Graph)
  | pm, g => do
      let (ports, g1) ← visitOutport ctx pm.2 g
      match ports with
      | [] => .error .indexError
      | p :: _ => pure ((pm.1, p), g1)
termination_by pm _ => (sizeOf pm, 1)
decreasing_by
  apply Prod.Lex.left
  obtain ⟨a, b⟩ := pm
  simp_arith

/-- The elementwise pass of `visitNamed_map` (Python
`map(self.visitPort_map, ctx.port_l)`). -/
def visitPort_maps (ctx : Context) :
    List (String × Outport) → Graph →
    Except Err (List (String × NodePort) × Graph)
  | [], g => .ok ([], g)
  | pm :: rest, g => do
      let (pair, g1) ← visitPort_map ctx pm g
      let (pairs, g2) ← visitPort_maps ctx rest g1
      pure (pair :: pairs, g2)
termination_by m _ => (sizeOf m, 1)

/-- Model of `visitNamed_map`: `dict(map(visitPort_map, port_l))`. -/
def visitNamed_map (ctx : Context) (m : List (String × Outport))
    (g : Graph) : Except Err (List (String × NodePort) × Graph) := do
  let (pairs, g1) ← visitPort_maps ctx m g
  pure (pyDict pairs, g1)
termination_by (sizeOf m, 2)

/-- Model of `visitPositional_args`: `sum(map(self.visitOutport, arg_l), [])` —
the concatenation of every argument's resolved port list. -/
def visitPositional_args (ctx : Context) :
    List Outport → Graph → Except Err (List NodePort × Graph)
  | [], g => .ok ([], g)
  | a :: rest, g => do
      let (ps, g1) ← visitOutport ctx a g
      let (rest_ps, g2) ← visitPositional_args ctx rest g1
      pure (ps ++ rest_ps, g2)
termination_by args _ => (sizeOf args, 1)

/-- Model of `visitArglist`: a named map is returned as-is; a positional list is
zipped against the caller-provided `expected_ports` (the `assert
hasattr(ctx, "expected_ports")` is modelled by the `none` case); the
grammar's empty alternative raises `RuntimeError`. -/
def visitArglist (ctx : Context) :
    Arglist → Option (List String) → Graph →
    Except Err (List (String × NodePort) × Graph)
  | .named m, _, g => visitNamed_map ctx m g
  | .positional args, expected, g =>
      match expected with
      | none => .error .assertionError
      | some ports => do
          let (ps, g1) ← visitPositional_args ctx args g
          pure (pyDict (List.zip ports ps), g1)
  | .emptyA, _, _ => .error .runtimeError
termination_by a _ _ => (sizeOf a, 3)
end

end

/- ===================  Instruction lowering  =================== -/

/-- The context handed to the sub-visitors of an `if` block or a loop:
a fresh `Context()` whose `functions` table is a shallow copy of the
parent's and whose `inputs` are the caller-supplied port names with no
types.  `output_vars`, `constants`, `outputs` and `aliases` keep their
empty defaults (in particular the parent's aliases are NOT copied). -/
def subContext (parent : Context) (input_names : List String) : Context :=
  { functions := parent.functions,
    output_vars := [],
    constants := [],
    inputs := input_names.map (fun inp => (inp, none)),
    outputs := [],
    aliases := [] }

section
variable (sig : RuntimeSignature)

/-- Model of `self.visitNamed_map(ctx.inputs) if ctx.inputs else {}`: the
optional named input map of an `if` block or a loop. -/
def visitInputs (ctx : Context)
    (inputs : Option (List (String × Outport))) (g : Graph) :
    Except Err (List (String × NodePort) × Graph) :=
  match inputs with
  | some m => visitNamed_map sig ctx m g
  | none => .ok ([], g)

mutual
/-- One instruction of a code block (`visitCallMap`, `visitOutputCall`,
`visitConstDecl`, `visitIfBlock`, `visitLoop`, `visitEdge`). -/
def visitInst : Inst → VisitorState → Except Err VisitorState
  | .callMap target call, s => do
      let (res, g1) ← visitNodeInputs sig s.context call s.graph
      pure ⟨{ s.context with
              output_vars := pyInsert s.context.output_vars target res },
            g1⟩
  | .outputCall args, s => do
      let (arglist, g1) ←
        visitArglist sig s.context args (some (pyKeys s.context.outputs))
          s.graph
      pure ⟨s.context, g1.set_outputs arglist⟩
  | .constDecl target c, s =>
      let (g1, node_ref) := s.graph.add_const (visitConst_ c)
      pure ⟨{ s.context with
              constants := pyInsert s.context.constants target node_ref },
            g1⟩
  | .ifBlock target condition inputs if_block else_block, s => do
      let (cond_ports, g1) ← visitOutport sig s.context condition s.graph
      match cond_ports with
      | [] => .error .indexError
      | cond0 :: _ => do
        let (inputs_map, g2) ← visitInputs sig s.context inputs g1
        let ifcontext := subContext s.context (pyKeys inputs_map)
        let s_if ← visitInstList if_block ⟨ifcontext, Graph.empty⟩
        let if_g := s_if.graph
        let s_else ← visitInstList else_block ⟨ifcontext, Graph.empty⟩
        let else_g := s_else.graph
        let (g3, sw_nod) := g2.add_node "builtin/switch"
          [("pred", .port cond0),
           ("if_true", .value (.graphV if_g)),
           ("if_false", .value (.graphV else_g))]
        let (g4, eval_n) := g3.add_node "builtin/eval"
          (("thunk", .port ⟨sw_nod, "value"⟩)
            :: inputs_map.map fun kw => (kw.1, .port kw.2))
        let output_names := pyUnion if_g.outputs else_g.outputs
        let fake_func : FunctionDefinition :=
          ⟨pyKeys inputs_map, output_names, none⟩
        pure ⟨{ s.context with
                output_vars :=
                  pyInsert s.context.output_vars target (eval_n, fake_func) },
              g4⟩
  | .loopInst target inputs body condition, s => do
      let (inputs_map, g1) ← visitInputs sig s.context inputs s.graph
      let loopcontext := subContext s.context (pyKeys inputs_map)
      let s_body ← visitInstList body ⟨loopcontext, Graph.empty⟩
      let body_g := s_body.graph
      let s_cond ← visitInstList condition ⟨loopcontext, Graph.empty⟩
      let condition_g := s_cond.graph
      let (g2, loop_nod) := g1.add_node "builtin/loop"
        (("condition", .value (.graphV condition_g))
          :: ("body", .value (.graphV body_g))
          :: inputs_map.map fun kw => (kw.1, .port kw.2))
      let fake_func : FunctionDefinition :=
        ⟨pyKeys inputs_map, body_g.outputs, none⟩
      pure ⟨{ s.context with
              output_vars :=
                pyInsert s.context.output_vars target (loop_nod, fake_func) },
            g2⟩
  | .edgeInst src tgt, s => do
      let source ← visitPort_label s.context src.1 src.2
      let target ← visitPort_label s.context tgt.1 tgt.2
      pure ⟨s.context, s.graph.addEdge ⟨source, target⟩⟩
termination_by i _ => sizeOf i

/-- Model of `visitCode_block`: lower the instructions in source order. -/
def visitInstList : List Inst → VisitorState → Except Err VisitorState
  | [], s => .ok s
  | i :: rest, s => do
      visitInstList rest (← visitInst i s)
termination_by l _ => sizeOf l
end

/-- Model of `OrderedDict((key, row.content[key]) for key in keys)`: select the
entries of a resolved row in the given key order, as an optional-typed
port map (`KeyError` on a missing key). -/
def rowSelect (row : List (String × TierkreisType)) :
    List String → Except Err (List (String × Option TierkreisType))
  | [] => .ok []
  | k :: rest =>
    match pyLookup row k with
    | some t => do pure ((k, some t) :: (← rowSelect row rest))
    | none => .error (.keyError k)

/-- Model of `visitFuncDef`: resolve the declared graph type, lower the body
with a sub-visitor whose context has the declared `inputs`/`outputs`
rows, and record the finished graph in the parent's `functions`
table.  The parent's own graph is untouched. -/
def visitFuncDef (name : String)
    (gt_inputs gt_outputs : List (String × TypeExpr)) (body : List Inst)
    (s : VisitorState) : Except Err VisitorState := do
  let f_def ← visitGraph_type s.context gt_inputs gt_outputs
  match f_def.graph_type with
  | none => .error .runtimeError
  | some gt => do
      let ins ← rowSelect gt.inputs f_def.inputs
      let outs ← rowSelect gt.outputs f_def.outputs
      let context := { s.context with inputs := ins, outputs := outs }
      let s_def ← visitInstList sig body ⟨context, Graph.empty⟩
      pure ⟨{ s.context with
              functions :=
                pyInsert s.context.functions name (s_def.graph, f_def) },
            s.graph⟩

/-- Model of `visitDeclaration` / `visitTypeAlias`. -/
def visitDeclaration : Decl → VisitorState → Except Err VisitorState
  | .typeAlias name t, s => do
      let ty ← visitType_ s.context t
      pure ⟨{ s.context with aliases := pyInsert s.context.aliases name ty },
            s.graph⟩
  | .funcDef name gt_ins gt_outs body, s =>
      visitFuncDef sig name gt_ins gt_outs body s

/-- Lower every declaration in order. -/
def visitDeclarations : List Decl → VisitorState → Except Err VisitorState
  | [], s => .ok s
  | d :: rest, s => do
      visitDeclarations rest (← visitDeclaration sig d s)

/-- Model of `visitStart`: lower all declarations, then return the graph of
`main` (a raw dict subscript: `KeyError` when absent). -/
def visitStart (decs : List Decl) (s : VisitorState) : Except Err Graph := do
  let s1 ← visitDeclarations sig decs s
  match pyLookup s1.context.functions "main" with
  | some gfd => pure gfd.1
  | none => .error (.keyError "main")

end

/- ===================  Concrete fixtures  =================== -/

/-- A bound call result with two output ports. -/
def fdV : FunctionDefinition := ⟨["a"], ["o1", "o2"], none⟩

/-- A declared function with one output port. -/
def fdF : FunctionDefinition := ⟨[], ["r"], none⟩

/-- A context populating all four bare-identifier scopes. -/
def ctxScope : Context :=
  { inputs := [("i", none)],
    output_vars := [("v", (5, fdV))],
    functions := [("f", (Graph.empty, fdF))],
    constants := [("k", 7)] }

/-- The recorded definition of the one-input one-output function used
to test boundary-port preservation. -/
def fdMain : FunctionDefinition :=
  ⟨["a"], ["r"], some ⟨[("a", .intT)], [("r", .intT)]⟩⟩

/-- The lowered body of `main(a: Int) -> (r: Int) [ output(r = 5) ]`:
a single constant node wired to the boundary output; the declared
input `a` is never referenced. -/
def gMainBody : Graph :=
  .mk [.inputNode, .outputNode, .constNode (.intV 5)]
     [⟨⟨2, "value"⟩, ⟨1, "r"⟩⟩]

/-- A parent context with a nonempty alias table. -/
def ctxAliased : Context := { aliases := [("A", .intT)] }

/-- A context whose only name is the input port `p`. -/
def ctxPred : Context := { inputs := [("p", none)] }

/-- The graph emitted for `r = if p () [] else []` from an empty
parent graph: switch, two constant nodes carrying the (empty) branch
graphs, and eval. -/
def gPredIf : Graph :=
  .mk [.inputNode, .outputNode, .opNode "builtin/switch",
       .constNode (.graphV Graph.empty), .constNode (.graphV Graph.empty),
       .opNode "builtin/eval"]
     [⟨⟨0, "p"⟩, ⟨2, "pred"⟩⟩, ⟨⟨3, "value"⟩, ⟨2, "if_true"⟩⟩,
      ⟨⟨4, "value"⟩, ⟨2, "if_false"⟩⟩, ⟨⟨2, "value"⟩, ⟨5, "thunk"⟩⟩]

/-- A context with an input and an alias, used to observe the frame of
an `if` lowering. -/
def ctxFrameIf : Context :=
  { inputs := [("q", none)], aliases := [("B", .boolT)] }

/-- The state after lowering `x = if q () [] else []` from
`ctxFrameIf` and an empty graph. -/
def resFrameIf : VisitorState :=
  ⟨{ ctxFrameIf with output_vars := [("x", (5, ⟨[], [], none⟩))] },
   .mk [.inputNode, .outputNode, .opNode "builtin/switch",
        .constNode (.graphV Graph.empty), .constNode (.graphV Graph.empty),
        .opNode "builtin/eval"]
      [⟨⟨0, "q"⟩, ⟨2, "pred"⟩⟩, ⟨⟨3, "value"⟩, ⟨2, "if_true"⟩⟩,
       ⟨⟨4, "value"⟩, ⟨2, "if_false"⟩⟩, ⟨⟨2, "value"⟩, ⟨5, "thunk"⟩⟩]⟩

/-- A context with one locally defined function, used to observe the
frame of a loop lowering. -/
def ctxFrameLoop : Context :=
  { functions := [("h", (Graph.empty, ⟨[], [], none⟩))] }

/-- The state after lowering `w = loop () [] while []` from
`ctxFrameLoop` and an empty graph. -/
def resFrameLoop : VisitorState :=
  ⟨{ ctxFrameLoop with output_vars := [("w", (2, ⟨[], [], none⟩))] },
   .mk [.inputNode, .outputNode, .opNode "builtin/loop",
        .constNode (.graphV Graph.empty), .constNode (.graphV Graph.empty)]
      [⟨⟨3, "value"⟩, ⟨2, "condition"⟩⟩, ⟨⟨4, "value"⟩, ⟨2, "body"⟩⟩]⟩

/-- A context whose only name is the input port `p` (conditional
scenario). -/
def ctxCond : Context := { inputs := [("p", none)] }

/-- The branch `[ output(v = 1) ]` lowered on its own. -/
def gBr1 : Graph :=
  .mk [.inputNode, .outputNode, .constNode (.intV 1)]
     [⟨⟨2, "value"⟩, ⟨1, "v"⟩⟩]

/-- The branch `[ output(v = 2) ]` lowered on its own. -/
def gBr2 : Graph :=
  .mk [.inputNode, .outputNode, .constNode (.intV 2)]
     [⟨⟨2, "value"⟩, ⟨1, "v"⟩⟩]

/-- The state after lowering
`r = if p () [ output(v = 1) ] else [ output(v = 2) ]`. -/
def resCond : VisitorState :=
  ⟨{ ctxCond with output_vars := [("r", (5, ⟨[], ["v"], none⟩))] },
   .mk [.inputNode, .outputNode, .opNode "builtin/switch",
        .constNode (.graphV gBr1), .constNode (.graphV gBr2),
        .opNode "builtin/eval"]
      [⟨⟨0, "p"⟩, ⟨2, "pred"⟩⟩, ⟨⟨3, "value"⟩, ⟨2, "if_true"⟩⟩,
       ⟨⟨4, "value"⟩, ⟨2, "if_false"⟩⟩, ⟨⟨2, "value"⟩, ⟨5, "thunk"⟩⟩]⟩

/-- The loop body `[ output(x = 1) ]` lowered on its own. -/
def gLoopBody : Graph :=
  .mk [.inputNode, .outputNode, .constNode (.intV 1)]
     [⟨⟨2, "value"⟩, ⟨1, "x"⟩⟩]

/-- The loop condition `[ output(pred = true) ]` lowered on its own. -/
def gLoopCond : Graph :=
  .mk [.inputNode, .outputNode, .constNode (.boolV true)]
     [⟨⟨2, "value"⟩, ⟨1, "pred"⟩⟩]

/-- The state after lowering
`r = loop (x = 0) [ output(x = 1) ] while [ output(pred = true) ]`
from an empty context. -/
def resLoop : VisitorState :=
  ⟨{ output_vars := [("r", (3, ⟨["x"], ["x"], none⟩))] },
   .mk [.inputNode, .outputNode, .constNode (.intV 0),
        .opNode "builtin/loop", .constNode (.graphV gLoopCond),
        .constNode (.graphV gLoopBody)]
      [⟨⟨4, "value"⟩, ⟨3, "condition"⟩⟩, ⟨⟨5, "value"⟩, ⟨3, "body"⟩⟩,
       ⟨⟨2, "value"⟩, ⟨3, "x"⟩⟩]⟩

/-- A context with one bound call result `v` whose recorded outputs
are `["c"]` only. -/
def ctxV : Context := { output_vars := [("v", (5, ⟨["a"], ["c"], none⟩))] }

/-- A one-namespace catalog containing only `iadd`. -/
def sigAdd : RuntimeSignature :=
  [("builtin", [("iadd", ⟨"builtin/iadd", ["a", "b"], ["c"]⟩)])]

/-- A catalog containing only `builtin/eval`. -/
def sigEval : RuntimeSignature :=
  [("builtin", [("eval", ⟨"builtin/eval", ["thunk"], []⟩)])]

/-- A context with a two-output bound call result `v`. -/
def ctxTwoOut : Context := { output_vars := [("v", (4, ⟨[], ["o1", "o2"], none⟩))] }

/-- The lowered body of `idw(x: Int) -> (y: Bool) [ output(y = true) ]`. -/
def gIdw : Graph :=
  .mk [.inputNode, .outputNode, .constNode (.boolV true)]
     [⟨⟨2, "value"⟩, ⟨1, "y"⟩⟩]

/-- The recorded definition of `idw`. -/
def fdIdw : FunctionDefinition :=
  ⟨["x"], ["y"], some ⟨[("x", .intT)], [("y", .boolT)]⟩⟩

/- ===================  Supporting lemmas  =================== -/

@[simp]
theorem Graph.nodes_mk (ns : List TkNode) (es : List TkEdge) :
    (Graph.mk ns es).nodes = ns := rfl

@[simp]
theorem Graph.edges_mk (ns : List TkNode) (es : List TkEdge) :
    (Graph.mk ns es).edges = es := rfl

@[simp]
theorem Graph.nodes_addEdge (g : Graph) (e : TkEdge) :
    (g.addEdge e).nodes = g.nodes := by
  cases g; rfl

@[simp]
theorem Graph.edges_addEdge (g : Graph) (e : TkEdge) :
    (g.addEdge e).edges = g.edges ++ [e] := by
  cases g; rfl

@[simp]
theorem Graph.nodes_addNodeRaw (g : Graph) (n : TkNode) :
    (g.addNodeRaw n).1.nodes = g.nodes ++ [n] := by
  cases g; rfl

@[simp]
theorem Graph.edges_addNodeRaw (g : Graph) (n : TkNode) :
    (g.addNodeRaw n).1.edges = g.edges := by
  cases g; rfl

@[simp]
theorem Graph.ref_addNodeRaw (g : Graph) (n : TkNode) :
    (g.addNodeRaw n).2 = g.nodes.length := by
  cases g; rfl

@[simp]
theorem Graph.add_const_eq (g : Graph) (v : TkValue) :
    g.add_const v = (.mk (g.nodes ++ [.constNode v]) g.edges, g.nodes.length) := by
  cases g; rfl

/-- Wiring keyword arguments that are all existing ports appends one
edge per argument and creates no node. -/
theorem Graph.wireKwargs_ports (g : Graph) (t : NodeRef)
    (l : List (String × NodePort)) :
    g.wireKwargs t (l.map fun kw => (kw.1, .port kw.2)) =
      .mk g.nodes (g.edges ++ l.map fun kw => ⟨kw.2, ⟨t, kw.1⟩⟩) := by
  induction l generalizing g with
  | nil => simp [wireKwargs]; cases g; rfl
  | cons hd tl ih =>
      simp only [wireKwargs, List.map_cons, List.foldl_cons] at *
      rw [show (g.addEdge ⟨hd.2, ⟨t, hd.1⟩⟩) = Graph.mk g.nodes (g.edges ++ [⟨hd.2, ⟨t, hd.1⟩⟩]) by cases g; rfl]
      rw [ih]
      simp

/-- Lemma: `add_node` with all-port keyword arguments: one fresh operation
node and one edge per argument. -/
theorem Graph.add_node_ports (g : Graph) (name : String)
    (l : List (String × NodePort)) :
    g.add_node name (l.map fun kw => (kw.1, .port kw.2)) =
      (.mk (g.nodes ++ [.opNode name])
        (g.edges ++ l.map fun kw => ⟨kw.2, ⟨g.nodes.length, kw.1⟩⟩),
       g.nodes.length) := by
  cases g with
  | mk ns es =>
    show ((Graph.mk (ns ++ [.opNode name]) es).wireKwargs ns.length
        (l.map fun kw => (kw.1, .port kw.2)), ns.length) = _
    rw [Graph.wireKwargs_ports]
    simp

/-- Lemma: `add_box` with all-port keyword arguments. -/
theorem Graph.add_box_ports (g : Graph) (sub : Graph) (name : String)
    (l : List (String × NodePort)) :
    g.add_box sub name (l.map fun kw => (kw.1, .port kw.2)) =
      (.mk (g.nodes ++ [.boxNode name sub])
        (g.edges ++ l.map fun kw => ⟨kw.2, ⟨g.nodes.length, kw.1⟩⟩),
       g.nodes.length) := by
  cases g with
  | mk ns es =>
    show ((Graph.mk (ns ++ [.boxNode name sub]) es).wireKwargs ns.length
        (l.map fun kw => (kw.1, .port kw.2)), ns.length) = _
    rw [Graph.wireKwargs_ports]
    simp

/-- Lemma: `set_outputs` only appends edges into the boundary output node. -/
theorem Graph.set_outputs_eq (g : Graph) (l : List (String × NodePort)) :
    g.set_outputs l =
      .mk g.nodes (g.edges ++ l.map fun kw => ⟨kw.2, ⟨outputNodeRef, kw.1⟩⟩) := by
  unfold set_outputs
  rw [Graph.wireKwargs_ports]

@[simp]
theorem pyLookup_pyInsert_self {α : Type} (d : List (String × α))
    (k : String) (v : α) : pyLookup (pyInsert d k v) k = some v := by
  induction d with
  | nil => simp [pyInsert, pyLookup]
  | cons hd tl ih =>
      by_cases h : hd.1 = k
      · simp [pyInsert, pyLookup, h]
      · simp [pyInsert, pyLookup, h, ih]

theorem pyLookup_pyInsert_ne {α : Type} (d : List (String × α))
    (k k' : String) (v : α) (h : k ≠ k') :
    pyLookup (pyInsert d k v) k' = pyLookup d k' := by
  induction d with
  | nil => simp [pyInsert, pyLookup, h]
  | cons hd tl ih =>
      by_cases hh : hd.1 = k
      · simp [pyInsert, pyLookup, hh, h]
      · simp [pyInsert, pyLookup, hh, ih]

/-- Inserting a fresh key appends it. -/
theorem pyInsert_of_not_mem {α : Type} (d : List (String × α))
    (k : String) (v : α) (h : k ∉ d.map Prod.fst) :
    pyInsert d k v = d ++ [(k, v)] := by
  induction d with
  | nil => rfl
  | cons hd tl ih =>
      simp only [List.map_cons, List.mem_cons] at h
      push_neg at h
      simp [pyInsert, Ne.symm h.1, ih h.2]

/-- Lemma: `dict(pairs)` with pairwise distinct keys is the pair list itself. -/
theorem pyDict_eq_self_of_nodup {α : Type} (l : List (String × α))
    (h : (l.map Prod.fst).Nodup) : pyDict l = l := by
  suffices H : ∀ (acc : List (String × α)),
      (∀ k, k ∈ l.map Prod.fst → k ∉ acc.map Prod.fst) →
      (l.map Prod.fst).Nodup →
      l.foldl (fun d p => pyInsert d p.1 p.2) acc = acc ++ l by
    simpa using H [] (by simp) h
  clear h
  induction l with
  | nil => intro acc _ _; simp
  | cons hd tl ih =>
      intro acc hfresh hnd
      simp only [List.map_cons, List.nodup_cons] at hnd
      simp only [List.foldl_cons]
      rw [pyInsert_of_not_mem acc hd.1 hd.2 (hfresh hd.1 (by simp))]
      rw [ih (acc ++ [(hd.1, hd.2)]) ?fresh hnd.2]
      · simp
      case fresh =>
        intro k hk
        simp only [List.map_append, List.mem_append, List.map_cons,
          List.map_nil, List.mem_singleton]
        push_neg
        refine ⟨hfresh k (by simp [hk]), ?_⟩
        intro heq
        exact hnd.1 (heq ▸ hk)

/-- Keys of `dict(pairs)` when the keys are pairwise distinct. -/
theorem pyKeys_pyDict_of_nodup {α : Type} (l : List (String × α))
    (h : (l.map Prod.fst).Nodup) : pyKeys (pyDict l) = l.map Prod.fst := by
  rw [pyDict_eq_self_of_nodup l h]; rfl

/-- Membership of the union of two port-name lists. -/
theorem mem_pyUnion (a b : List String) (x : String) :
    x ∈ pyUnion a b ↔ x ∈ a ∨ x ∈ b := by
  simp only [pyUnion, List.mem_append, List.mem_filter]
  constructor
  · rintro (h | ⟨h, _⟩)
    · exact .inl h
    · exact .inr h
  · intro h
    by_cases ha : x ∈ a
    · exact .inl ha
    · rcases h with h | h
      · exact absurd h ha
      · refine .inr ⟨h, ?_⟩
        simpa using ha

@[simp]
theorem Graph.wireKwargs_nil (g : Graph) (t : NodeRef) :
    g.wireKwargs t [] = g := rfl

theorem Graph.wireKwargs_cons_port (g : Graph) (t : NodeRef) (n : String)
    (p : NodePort) (rest : List (String × Incoming)) :
    g.wireKwargs t ((n, .port p) :: rest) =
      (g.addEdge ⟨p, ⟨t, n⟩⟩).wireKwargs t rest := rfl

theorem Graph.wireKwargs_cons_value (g : Graph) (t : NodeRef) (n : String)
    (v : TkValue) (rest : List (String × Incoming)) :
    g.wireKwargs t ((n, .value v) :: rest) =
      ((Graph.mk (g.nodes ++ [.constNode v]) g.edges).addEdge
        ⟨⟨g.nodes.length, "value"⟩, ⟨t, n⟩⟩).wireKwargs t rest := by
  cases g; rfl

/-- The `builtin/switch` emission of `visitIfBlock`: one operation node
followed by the two constant nodes carrying the branch graphs, with
`pred`, `if_true`, `if_false` wired in order. -/
theorem Graph.add_node_switch (g : Graph) (cp : NodePort) (v1 v2 : TkValue) :
    g.add_node "builtin/switch"
      [("pred", .port cp), ("if_true", .value v1), ("if_false", .value v2)] =
    (.mk (g.nodes ++ [.opNode "builtin/switch", .constNode v1, .constNode v2])
       (g.edges ++
         [⟨cp, ⟨g.nodes.length, "pred"⟩⟩,
          ⟨⟨g.nodes.length + 1, "value"⟩, ⟨g.nodes.length, "if_true"⟩⟩,
          ⟨⟨g.nodes.length + 2, "value"⟩, ⟨g.nodes.length, "if_false"⟩⟩]),
     g.nodes.length) := by
  cases g with
  | mk ns es =>
    show ((Graph.mk (ns ++ [.opNode "builtin/switch"]) es).wireKwargs ns.length
        _, ns.length) = _
    rw [Graph.wireKwargs_cons_port, Graph.wireKwargs_cons_value]
    simp only [Graph.nodes_addEdge, Graph.nodes_mk, Graph.edges_addEdge,
      Graph.edges_mk]
    rw [Graph.wireKwargs_cons_value]
    simp [Graph.addEdge, List.append_assoc]

/-- The `builtin/eval` emission: one operation node, `thunk` wired
first, then the named inputs in order. -/
theorem Graph.add_node_eval (g : Graph) (p : NodePort)
    (im : List (String × NodePort)) :
    g.add_node "builtin/eval"
      (("thunk", .port p) :: im.map fun kw => (kw.1, .port kw.2)) =
    (.mk (g.nodes ++ [.opNode "builtin/eval"])
       (g.edges ++ ⟨p, ⟨g.nodes.length, "thunk"⟩⟩ ::
          im.map fun kw => ⟨kw.2, ⟨g.nodes.length, kw.1⟩⟩),
     g.nodes.length) := by
  have hm : ("thunk", Incoming.port p) ::
      im.map (fun kw => (kw.1, Incoming.port kw.2)) =
      (("thunk", p) :: im).map fun kw => (kw.1, Incoming.port kw.2) := by simp
  rw [hm, Graph.add_node_ports]
  simp

/-- The `builtin/loop` emission of `visitLoop`: one operation node
followed by the constant nodes carrying the condition and body graphs,
then the named inputs wired in order. -/
theorem Graph.add_node_loop (g : Graph) (vc vb : TkValue)
    (im : List (String × NodePort)) :
    g.add_node "builtin/loop"
      (("condition", .value vc) :: ("body", .value vb) ::
        im.map fun kw => (kw.1, .port kw.2)) =
    (.mk (g.nodes ++ [.opNode "builtin/loop", .constNode vc, .constNode vb])
       (g.edges ++ ⟨⟨g.nodes.length + 1, "value"⟩, ⟨g.nodes.length, "condition"⟩⟩ ::
          ⟨⟨g.nodes.length + 2, "value"⟩, ⟨g.nodes.length, "body"⟩⟩ ::
          im.map fun kw => ⟨kw.2, ⟨g.nodes.length, kw.1⟩⟩),
     g.nodes.length) := by
  cases g with
  | mk ns es =>
    show ((Graph.mk (ns ++ [.opNode "builtin/loop"]) es).wireKwargs ns.length
        _, ns.length) = _
    rw [Graph.wireKwargs_cons_value]
    simp only [Graph.nodes_addEdge, Graph.nodes_mk, Graph.edges_addEdge,
      Graph.edges_mk]
    rw [Graph.wireKwargs_cons_value]
    simp only [Graph.nodes_addEdge, Graph.nodes_mk, Graph.edges_addEdge,
      Graph.edges_mk]
    rw [Graph.wireKwargs_ports]
    simp [Graph.addEdge, List.append_assoc]

/-- Lemma: `visitF_params` preserves the parameter names in order. -/
theorem visitF_params_keys (ctx : Context) (ps : List (String × TypeExpr))
    (rs : List (String × TierkreisType))
    (h : visitF_params ctx ps = .ok rs) :
    rs.map Prod.fst = ps.map Prod.fst := by
  induction ps generalizing rs with
  | nil =>
      simp only [visitF_params] at h
      cases h; rfl
  | cons hd tl ih =>
      simp only [visitF_params, visitF_param, bind, Except.bind] at h
      cases ht : visitType_ ctx hd.2 with
      | error e => rw [ht] at h; simp [pure, Except.pure] at h
      | ok t =>
          rw [ht] at h
          simp only [pure, Except.pure] at h
          cases hrest : visitF_params ctx tl with
          | error e => rw [hrest] at h; simp at h
          | ok rest =>
              rw [hrest] at h
              simp only [Except.ok.injEq] at h
              subst h
              simp [ih rest hrest]

/-- Successful lowering of an `if` assignment decomposes into: resolve
the condition (first port), resolve the named inputs, lower each branch
from a fresh visitor over the sub-context, then append exactly the
switch node, the two constant nodes carrying the branch graphs, and the
eval node, and bind the target. -/
theorem ifBlock_decomp (sig : RuntimeSignature) (t : String) (c : Outport)
    (ins : Option (List (String × Outport))) (b1 b2 : List Inst)
    (s s' : VisitorState)
    (h : visitInst sig (.ifBlock t c ins b1 b2) s = .ok s') :
    ∃ cp cps g1 im g2 sIf sElse,
      visitOutport sig s.context c s.graph = .ok (cp :: cps, g1) ∧
      visitInputs sig s.context ins g1 = .ok (im, g2) ∧
      visitInstList sig b1 ⟨subContext s.context (pyKeys im), Graph.empty⟩
        = .ok sIf ∧
      visitInstList sig b2 ⟨subContext s.context (pyKeys im), Graph.empty⟩
        = .ok sElse ∧
      s' = ⟨{ s.context with
              output_vars := pyInsert s.context.output_vars t
                (g2.nodes.length + 3,
                 ⟨pyKeys im, pyUnion sIf.graph.outputs sElse.graph.outputs,
                  none⟩) },
            .mk (g2.nodes ++
                  [.opNode "builtin/switch", .constNode (.graphV sIf.graph),
                   .constNode (.graphV sElse.graph), .opNode "builtin/eval"])
               (g2.edges ++
                  ⟨cp, ⟨g2.nodes.length, "pred"⟩⟩ ::
                  ⟨⟨g2.nodes.length + 1, "value"⟩, ⟨g2.nodes.length, "if_true"⟩⟩ ::
                  ⟨⟨g2.nodes.length + 2, "value"⟩, ⟨g2.nodes.length, "if_false"⟩⟩ ::
                  ⟨⟨g2.nodes.length, "value"⟩, ⟨g2.nodes.length + 3, "thunk"⟩⟩ ::
                  im.map (fun kw => ⟨kw.2, ⟨g2.nodes.length + 3, kw.1⟩⟩))⟩ := by
  rw [visitInst] at h
  cases hc : visitOutport sig s.context c s.graph with
  | error e => rw [hc] at h; simp [Bind.bind, Except.bind] at h
  | ok pr =>
    obtain ⟨cond_ports, g1⟩ := pr
    rw [hc] at h
    simp only [Bind.bind, Except.bind] at h
    cases cond_ports with
    | nil => simp at h
    | cons cp cps =>
      simp only at h
      cases hi : visitInputs sig s.context ins g1 with
      | error e => rw [hi] at h; simp at h
      | ok pr2 =>
        obtain ⟨im, g2⟩ := pr2
        rw [hi] at h
        simp only at h
        cases h1 : visitInstList sig b1
            ⟨subContext s.context (pyKeys im), Graph.empty⟩ with
        | error e => rw [h1] at h; simp at h
        | ok sIf =>
          rw [h1] at h
          simp only at h
          cases h2 : visitInstList sig b2
              ⟨subContext s.context (pyKeys im), Graph.empty⟩ with
          | error e => rw [h2] at h; simp at h
          | ok sElse =>
            rw [h2] at h
            simp only [Graph.add_node_switch, Graph.add_node_eval, pure,
              Except.pure, Except.ok.injEq] at h
            refine ⟨cp, cps, g1, im, g2, sIf, sElse, rfl, hi, h1, h2, ?_⟩
            rw [← h]
            simp [List.append_assoc]

/-- Successful lowering of a loop assignment decomposes into: resolve
the named inputs, lower the body and then the condition from fresh
visitors over the sub-context, then append exactly the loop node and
the two constant nodes carrying the condition and body graphs, and
bind the target. -/
theorem loop_decomp (sig : RuntimeSignature) (t : String)
    (ins : Option (List (String × Outport))) (body condition : List Inst)
    (s s' : VisitorState)
    (h : visitInst sig (.loopInst t ins body condition) s = .ok s') :
    ∃ im g1 sBody sCond,
      visitInputs sig s.context ins s.graph = .ok (im, g1) ∧
      visitInstList sig body ⟨subContext s.context (pyKeys im), Graph.empty⟩
        = .ok sBody ∧
      visitInstList sig condition
        ⟨subContext s.context (pyKeys im), Graph.empty⟩ = .ok sCond ∧
      s' = ⟨{ s.context with
              output_vars := pyInsert s.context.output_vars t
                (g1.nodes.length,
                 ⟨pyKeys im, sBody.graph.outputs, none⟩) },
            .mk (g1.nodes ++
                  [.opNode "builtin/loop", .constNode (.graphV sCond.graph),
                   .constNode (.graphV sBody.graph)])
               (g1.edges ++
                  ⟨⟨g1.nodes.length + 1, "value"⟩, ⟨g1.nodes.length, "condition"⟩⟩ ::
                  ⟨⟨g1.nodes.length + 2, "value"⟩, ⟨g1.nodes.length, "body"⟩⟩ ::
                  im.map (fun kw => ⟨kw.2, ⟨g1.nodes.length, kw.1⟩⟩))⟩ := by
  rw [visitInst] at h
  cases hi : visitInputs sig s.context ins s.graph with
  | error e => rw [hi] at h; simp [Bind.bind, Except.bind] at h
  | ok pr =>
    obtain ⟨im, g1⟩ := pr
    rw [hi] at h
    simp only [Bind.bind, Except.bind] at h
    cases hb : visitInstList sig body
        ⟨subContext s.context (pyKeys im), Graph.empty⟩ with
    | error e => rw [hb] at h; simp at h
    | ok sBody =>
      rw [hb] at h
      simp only at h
      cases hcnd : visitInstList sig condition
          ⟨subContext s.context (pyKeys im), Graph.empty⟩ with
      | error e => rw [hcnd] at h; simp at h
      | ok sCond =>
        rw [hcnd] at h
        simp only [Graph.add_node_loop, pure, Except.pure,
          Except.ok.injEq] at h
        refine ⟨im, g1, sBody, sCond, rfl, hb, hcnd, ?_⟩
        rw [← h]

/-- A resolved parameter row keeps the declared names in order when
they are pairwise distinct. -/
theorem visitF_param_list_keys (ctx : Context)
    (ps : List (String × TypeExpr)) (r : List (String × TierkreisType))
    (hnd : (ps.map Prod.fst).Nodup)
    (h : visitF_param_list ctx ps = .ok r) :
    pyKeys r = ps.map Prod.fst := by
  rw [visitF_param_list] at h
  cases hp : visitF_params ctx ps with
  | error e => rw [hp] at h; simp [Bind.bind, Except.bind] at h
  | ok rs =>
      rw [hp] at h
      simp only [Bind.bind, Except.bind, pure, Except.pure,
        Except.ok.injEq] at h
      subst h
      have hk := visitF_params_keys ctx ps rs hp
      show pyKeys (pyDict rs) = ps.map Prod.fst
      rw [pyKeys_pyDict_of_nodup rs (by rw [hk]; exact hnd)]
      exact hk

/-- Lemma: `visitGraph_type` records the declared parameter sequences. -/
theorem visitGraph_type_keys (ctx : Context)
    (gti gto : List (String × TypeExpr)) (fd : FunctionDefinition)
    (hni : (gti.map Prod.fst).Nodup) (hno : (gto.map Prod.fst).Nodup)
    (h : visitGraph_type ctx gti gto = .ok fd) :
    fd.inputs = gti.map Prod.fst ∧ fd.outputs = gto.map Prod.fst := by
  rw [visitGraph_type] at h
  cases hi : visitF_param_list ctx gti with
  | error e => rw [hi] at h; simp [Bind.bind, Except.bind] at h
  | ok ri =>
      rw [hi] at h
      simp only [Bind.bind, Except.bind] at h
      cases ho : visitF_param_list ctx gto with
      | error e => rw [ho] at h; simp at h
      | ok ro =>
          rw [ho] at h
          simp only [pure, Except.pure, Except.ok.injEq] at h
          subst h
          exact ⟨visitF_param_list_keys ctx gti ri hni hi,
                 visitF_param_list_keys ctx gto ro hno ho⟩

/- ===================  Claim theorems  =================== -/

/-- C1: a bare identifier used as an outport source resolves in
priority order: a declared input port yields the boundary input port of
that name; else a bound call result yields that node's output ports in
signature order; else a declared function materializes a fresh constant
graph-valued node and yields its `value` port; else a declared local
constant yields that constant node's `value` port; otherwise resolution
fails with the name-not-in-scope error. -/
theorem C1_bare_identifier_resolution (ctx : Context) (g : Graph)
    (name : String) :
    (pyMem ctx.inputs name = true →
      visitThunkable_port ctx g (.ident name) =
        .ok ([⟨inputNodeRef, name⟩], g))
  ∧ (pyMem ctx.inputs name = false →
      ∀ n fd, pyLookup ctx.output_vars name = some (n, fd) →
        visitThunkable_port ctx g (.ident name) =
          .ok (make_outports n fd.outputs, g))
  ∧ (pyMem ctx.inputs name = false →
      pyLookup ctx.output_vars name = none →
      ∀ gr fd, pyLookup ctx.functions name = some (gr, fd) →
        visitThunkable_port ctx g (.ident name) =
          .ok ([⟨g.nodes.length, "value"⟩],
               .mk (g.nodes ++ [.constNode (.graphV gr)]) g.edges))
  ∧ (pyMem ctx.inputs name = false →
      pyLookup ctx.output_vars name = none →
      pyLookup ctx.functions name = none →
      ∀ c, pyLookup ctx.constants name = some c →
        visitThunkable_port ctx g (.ident name) = .ok ([⟨c, "value"⟩], g))
  ∧ (pyMem ctx.inputs name = false →
      pyLookup ctx.output_vars name = none →
      pyLookup ctx.functions name = none →
      pyLookup ctx.constants name = none →
        visitThunkable_port ctx g (.ident name) =
          .error (.nameNotInScope name)) := by
  refine ⟨?_, ?_, ?_, ?_, ?_⟩
  · intro h
    simp [visitThunkable_port, h, Graph.inputPort]
  · intro h n fd hv
    simp [visitThunkable_port, h, hv]
  · intro h hv gr fd hf
    simp [visitThunkable_port, h, hv, hf]
  · intro h hv hf c hc
    simp [visitThunkable_port, h, hv, hf, hc]
  · intro h hv hf hc
    simp [visitThunkable_port, h, hv, hf, hc]

/-- C1 witness: each of the five resolution outcomes observed on a
concrete context. -/
theorem C1_bare_identifier_resolution_witness :
    visitThunkable_port ctxScope Graph.empty (.ident "i") =
      .ok ([⟨inputNodeRef, "i"⟩], Graph.empty)
  ∧ visitThunkable_port ctxScope Graph.empty (.ident "v") =
      .ok ([⟨5, "o1"⟩, ⟨5, "o2"⟩], Graph.empty)
  ∧ visitThunkable_port ctxScope Graph.empty (.ident "f") =
      .ok ([⟨2, "value"⟩],
           .mk [.inputNode, .outputNode, .constNode (.graphV Graph.empty)] [])
  ∧ visitThunkable_port ctxScope Graph.empty (.ident "k") =
      .ok ([⟨7, "value"⟩], Graph.empty)
  ∧ visitThunkable_port ctxScope Graph.empty (.ident "z") =
      .error (.nameNotInScope "z") :=
  ⟨(C1_bare_identifier_resolution ctxScope Graph.empty "i").1 rfl,
   (C1_bare_identifier_resolution ctxScope Graph.empty "v").2.1 rfl 5 fdV rfl,
   (C1_bare_identifier_resolution ctxScope Graph.empty "f").2.2.1 rfl rfl
     Graph.empty fdF rfl,
   (C1_bare_identifier_resolution ctxScope Graph.empty "k").2.2.2.1 rfl rfl
     rfl 7 rfl,
   (C1_bare_identifier_resolution ctxScope Graph.empty "z").2.2.2.2 rfl rfl
     rfl rfl⟩

/-- C3 counterexample: the sub-context constructed for a nested block
does NOT copy the enclosing context's aliases table — for a parent with
a nonempty alias table, the sub-context's alias table is empty. -/
theorem C3_counterexample :
    (subContext ctxAliased ["x"]).aliases = []
  ∧ ctxAliased.aliases ≠ []
  ∧ (subContext ctxAliased ["x"]).aliases ≠ ctxAliased.aliases := by
  refine ⟨rfl, ?_, ?_⟩ <;> simp [subContext, ctxAliased]

/-- C3 (amended): the sub-context used to lower a conditional branch,
a loop body or a loop condition contains a shallow copy of the
enclosing context's functions table only; its aliases, output_vars and
constants tables start empty, and its inputs are freshly specified
from the caller-supplied names (with no types). -/
theorem C3_sub_context_tables (parent : Context) (names : List String) :
    (subContext parent names).functions = parent.functions
  ∧ (subContext parent names).output_vars = []
  ∧ (subContext parent names).constants = []
  ∧ (subContext parent names).aliases = []
  ∧ (subContext parent names).inputs = names.map (fun n => (n, none)) :=
  ⟨rfl, rfl, rfl, rfl, rfl⟩

/-- C8 (amended): an explicit `var.port` reference looks `var` up in
`output_vars` and returns that node's port named `port` WITHOUT
checking `port` against the function's declared output order (no
PortNotFound error exists); a `var` absent from `output_vars` raises a
`KeyError`. -/
theorem C8_port_label_no_validation (ctx : Context) (var port : String) :
    (∀ n fd, pyLookup ctx.output_vars var = some (n, fd) →
        visitPort_label ctx var port = .ok ⟨n, port⟩)
  ∧ (pyLookup ctx.output_vars var = none →
        visitPort_label ctx var port = .error (.keyError var)) := by
  constructor
  · intro n fd hv
    simp [visitPort_label, hv]
  · intro hv
    simp [visitPort_label, hv]

/-- C8 counterexample: `v.d` with `d` not among the declared outputs of
`v` resolves successfully to the node port `d` instead of failing with
PortNotFound. -/
theorem C8_counterexample :
    visitPort_label ctxV "v" "d" = .ok ⟨5, "d"⟩
  ∧ "d" ∉ (⟨["a"], ["c"], none⟩ : FunctionDefinition).outputs := by
  refine ⟨rfl, by simp⟩

/-- C8 witness: both branches of the amended statement on a concrete
context. -/
theorem C8_port_label_no_validation_witness :
    visitPort_label ctxV "v" "c" = .ok ⟨5, "c"⟩
  ∧ visitPort_label ctxV "w" "c" = .error (.keyError "w") :=
  ⟨(C8_port_label_no_validation ctxV "v" "c").1 5 ⟨["a"], ["c"], none⟩ rfl,
   (C8_port_label_no_validation ctxV "w" "c").2 rfl⟩

/-- C9: a call to a function name found neither in the signature
catalog (under its namespace, defaulting to `builtin`) nor in the local
functions table fails with the unknown-function error carrying the
missing name, and the call lowering returns no node. -/
theorem C9_unknown_function (sig : RuntimeSignature) (ctx : Context)
    (f : FName)
    (h1 : sigLookup sig (f.nspace.getD "builtin") f.fname = none)
    (h2 : pyLookup ctx.functions f.fname = none) :
    visitF_name sig ctx f = .error (.unknownFunction f.fname)
  ∧ ∀ args g, visitNodeInputs sig ctx (.funcCall f args) g =
      .error (.unknownFunction f.fname) := by
  constructor
  · simp [visitF_name, h1, h2]
  · intro args g
    rw [visitNodeInputs]
    simp [visitF_name, h1, h2, Bind.bind, Except.bind]

/-- C9 witness: `frobnicate` is absent from a catalog holding only
`iadd` and from an empty local table; the call fails with the
unknown-function error naming it. -/
theorem C9_unknown_function_witness :
    visitF_name sigAdd {} ⟨none, "frobnicate"⟩ =
      .error (.unknownFunction "frobnicate")
  ∧ visitNodeInputs sigAdd {} (.funcCall ⟨none, "frobnicate"⟩
        (.positional [.thunkable (.ident "x")])) Graph.empty =
      .error (.unknownFunction "frobnicate") :=
  ⟨(C9_unknown_function sigAdd {} ⟨none, "frobnicate"⟩ rfl rfl).1,
   (C9_unknown_function sigAdd {} ⟨none, "frobnicate"⟩ rfl rfl).2
     (.positional [.thunkable (.ident "x")]) Graph.empty⟩

/-- C7 (amended): the positional argument form is zipped against the
callee's declared input order, wiring position i to the i-th declared
input port; when the argument count and the declared input count
differ, Python `zip` silently truncates to the shorter side and NO
ArityMismatch error is raised. -/
theorem C7_positional_zip (sig : RuntimeSignature) (ctx : Context)
    (args : List Outport) (ports : List String) (g : Graph)
    (ps : List NodePort) (g1 : Graph)
    (h : visitPositional_args sig ctx args g = .ok (ps, g1)) :
    visitArglist sig ctx (.positional args) (some ports) g =
      .ok (pyDict (ports.zip ps), g1) := by
  rw [visitArglist]
  simp [h, Bind.bind, Except.bind, pure, Except.pure]

/-- C7 counterexample: two positional arguments against a single
declared input port compile successfully (the second argument is
dropped by `zip`) instead of failing with ArityMismatch. -/
theorem C7_counterexample :
    visitArglist [] {} (.positional [.constO (.intC 1), .constO (.intC 2)])
      (some ["a"]) Graph.empty =
    .ok ([("a", ⟨2, "value"⟩)],
         .mk [.inputNode, .outputNode, .constNode (.intV 1),
              .constNode (.intV 2)] []) := by
  rw [visitArglist]
  simp [visitPositional_args, visitOutport, visitConst_, Graph.empty,
    pyDict, pyInsert, Bind.bind, Except.bind, pure, Except.pure, List.zip]

/-- C7 witness: one positional argument against two declared ports is
zipped to the first port, with no error. -/
theorem C7_positional_zip_witness :
    visitArglist [] {} (.positional [.constO (.intC 7)]) (some ["a", "b"])
      Graph.empty =
    .ok ([("a", ⟨2, "value"⟩)],
         .mk [.inputNode, .outputNode, .constNode (.intV 7)] []) :=
  C7_positional_zip [] {} [.constO (.intC 7)] ["a", "b"] Graph.empty
    [⟨2, "value"⟩] (.mk [.inputNode, .outputNode, .constNode (.intV 7)] [])
    (by simp [visitPositional_args, visitOutport, visitConst_, Graph.empty,
      Bind.bind, Except.bind, pure, Except.pure])

/-- C10: a named argument `port = expr` keeps only the first output
port that `expr` resolves to, silently discarding the rest, and the
expression supplying a thunk's graph value is truncated to its first
port in the same way. -/
theorem C10_first_port_truncation (sig : RuntimeSignature) (ctx : Context) :
    (∀ (n : String) (o : Outport) (g : Graph) (p : NodePort)
        (ps : List NodePort) (g1 : Graph),
      visitOutport sig ctx o g = .ok (p :: ps, g1) →
      visitPort_map sig ctx (n, o) g = .ok ((n, p), g1))
  ∧ (∀ (t : ThunkablePort) (g : Graph) (p : NodePort) (ps : List NodePort)
        (g1 : Graph) (evalFn : TierkreisFunction),
      visitThunkable_port ctx g t = .ok (p :: ps, g1) →
      sigLookup sig "builtin" "eval" = some evalFn →
      visitNodeInputs sig ctx (.thunk t none) g =
        .ok ((g1.nodes.length, def_from_tkfunc evalFn),
             .mk (g1.nodes ++ [.opNode "builtin/eval"])
                (g1.edges ++ [⟨p, ⟨g1.nodes.length, "thunk"⟩⟩]))) := by
  constructor
  · intro n o g p ps g1 h
    rw [visitPort_map]
    simp [h, Bind.bind, Except.bind, pure, Except.pure]
  · intro t g p ps g1 evalFn h hsig
    rw [visitNodeInputs]
    simp [h, hsig, Bind.bind, Except.bind, pure, Except.pure,
      Graph.add_node, Graph.addNodeRaw, Graph.wireKwargs_cons_port,
      Graph.wireKwargs_nil, Graph.addEdge]

/-- C10 witness: a two-port call result used as a named argument and
as a thunk expression contributes only its first port in both
positions. -/
theorem C10_first_port_truncation_witness :
    visitPort_map sigEval ctxTwoOut ("t", .thunkable (.ident "v"))
      Graph.empty = .ok (("t", ⟨4, "o1"⟩), Graph.empty)
  ∧ visitNodeInputs sigEval ctxTwoOut (.thunk (.ident "v") none)
      Graph.empty =
      .ok ((2, def_from_tkfunc ⟨"builtin/eval", ["thunk"], []⟩),
           .mk [.inputNode, .outputNode, .opNode "builtin/eval"]
              [⟨⟨4, "o1"⟩, ⟨2, "thunk"⟩⟩]) :=
  ⟨(C10_first_port_truncation sigEval ctxTwoOut).1 "t"
      (.thunkable (.ident "v")) Graph.empty ⟨4, "o1"⟩ [⟨4, "o2"⟩]
      Graph.empty
      (by rw [visitOutport]
          rfl),
   (C10_first_port_truncation sigEval ctxTwoOut).2 (.ident "v")
      Graph.empty ⟨4, "o1"⟩ [⟨4, "o2"⟩] Graph.empty
      ⟨"builtin/eval", ["thunk"], []⟩ rfl rfl⟩

/-- C2 counterexample: for `main(a: Int) -> (r: Int) [ output(r = 5) ]`
— whose body never references `a` — lowering succeeds, the recorded
signature lists `a`, but the emitted graph's boundary input port
sequence is empty: it does not equal the declared input sequence. -/
theorem C2_counterexample :
    visitFuncDef [] "main" [("a", .intT)] [("r", .intT)]
      [.outputCall (.named [("r", .constO (.intC 5))])] ⟨{}, Graph.empty⟩ =
      .ok ⟨{ functions := [("main", (gMainBody, fdMain))] }, Graph.empty⟩
  ∧ gMainBody.inputs = []
  ∧ fdMain.inputs = ["a"]
  ∧ gMainBody.inputs ≠ fdMain.inputs := by
  refine ⟨?_, rfl, rfl, by decide⟩
  rw [visitFuncDef]
  simp [visitGraph_type, visitF_param_list, visitF_params, visitF_param,
    visitType_, rowSelect, pyLookup, pyDict, pyInsert, pyKeys,
    visitInstList, visitInst, visitArglist, visitNamed_map, visitPort_maps,
    visitPort_map, visitOutport, visitConst_, Graph.set_outputs,
    Graph.wireKwargs, Graph.addEdge, Graph.empty, outputNodeRef, Bind.bind,
    Except.bind, pure, Except.pure, gMainBody, fdMain]

/-- C2 (amended): the declared input and output parameter sequences of
a function definition are preserved from parse into the recorded
`FunctionDefinition` stored in the functions table; the graph's
boundary ports, by contrast, are derived from the body's wiring (an
unused declared input is absent from the boundary input sequence, as
the counterexample shows). -/
theorem C2_declared_order_preserved (sig : RuntimeSignature)
    (s s' : VisitorState) (name : String)
    (gti gto : List (String × TypeExpr)) (body : List Inst)
    (hni : (gti.map Prod.fst).Nodup) (hno : (gto.map Prod.fst).Nodup)
    (h : visitFuncDef sig name gti gto body s = .ok s') :
    ∃ g fd, pyLookup s'.context.functions name = some (g, fd) ∧
      fd.inputs = gti.map Prod.fst ∧ fd.outputs = gto.map Prod.fst := by
  rw [visitFuncDef] at h
  cases hg : visitGraph_type s.context gti gto with
  | error e => rw [hg] at h; simp [Bind.bind, Except.bind] at h
  | ok fd =>
      rw [hg] at h
      simp only [Bind.bind, Except.bind] at h
      cases hgt : fd.graph_type with
      | none => rw [hgt] at h; simp at h
      | some gt =>
          rw [hgt] at h
          simp only at h
          cases hri : rowSelect gt.inputs fd.inputs with
          | error e => rw [hri] at h; simp at h
          | ok ins =>
            rw [hri] at h
            simp only at h
            cases hro : rowSelect gt.outputs fd.outputs with
            | error e => rw [hro] at h; simp at h
            | ok outs =>
              rw [hro] at h
              simp only at h
              cases hb : visitInstList sig body
                  ⟨{ s.context with inputs := ins, outputs := outs },
                   Graph.empty⟩ with
              | error e => rw [hb] at h; simp at h
              | ok sd =>
                rw [hb] at h
                simp only [pure, Except.pure, Except.ok.injEq] at h
                subst h
                obtain ⟨hin, hout⟩ :=
                  visitGraph_type_keys s.context gti gto fd hni hno hg
                exact ⟨sd.graph, fd, by simp, hin, hout⟩

/-- C2 witness: the recorded definition of
`idw(x: Int) -> (y: Bool) [ output(y = true) ]` lists exactly the
declared sequences. -/
theorem C2_declared_order_preserved_witness :
    ∃ g fd,
      pyLookup ({ functions := [("idw", (gIdw, fdIdw))] } : Context).functions
        "idw" = some (g, fd) ∧
      fd.inputs = ["x"] ∧ fd.outputs = ["y"] :=
  C2_declared_order_preserved [] ⟨{}, Graph.empty⟩
    ⟨{ functions := [("idw", (gIdw, fdIdw))] }, Graph.empty⟩ "idw"
    [("x", .intT)] [("y", .boolT)]
    [.outputCall (.named [("y", .constO (.boolC true))])]
    (by decide) (by decide)
    (by rw [visitFuncDef]
        simp [visitGraph_type, visitF_param_list, visitF_params,
          visitF_param, visitType_, rowSelect, pyLookup, pyDict, pyInsert,
          pyKeys, visitInstList, visitInst, visitArglist, visitNamed_map,
          visitPort_maps, visitPort_map, visitOutport, visitConst_,
          Graph.set_outputs, Graph.wireKwargs, Graph.addEdge, Graph.empty,
          outputNodeRef, Bind.bind, Except.bind, pure, Except.pure, gIdw,
          fdIdw])

/-- C5: lowering `target = if cond (inputs) [then] else [else]` emits
exactly one `builtin/switch` node whose `pred` input is wired from the
condition's resolved outport and whose `if_true`/`if_false` inputs are
fed by the constant nodes carrying the two lowered branch sub-graphs,
plus exactly one `builtin/eval` node whose `thunk` input is wired from
the switch's `value` port and which receives the named inputs; the
target is bound to the eval node with a synthetic signature whose
inputs are the named-input keys and whose outputs are the union of the
output names of the two branch sub-graphs. -/
theorem C5_if_switch_eval (sig : RuntimeSignature) (t : String)
    (c : Outport) (ins : Option (List (String × Outport)))
    (b1 b2 : List Inst) (s s' : VisitorState)
    (h : visitInst sig (.ifBlock t c ins b1 b2) s = .ok s') :
    ∃ cp cps g1 im g2 sIf sElse,
      visitOutport sig s.context c s.graph = .ok (cp :: cps, g1) ∧
      visitInputs sig s.context ins g1 = .ok (im, g2) ∧
      visitInstList sig b1 ⟨subContext s.context (pyKeys im), Graph.empty⟩
        = .ok sIf ∧
      visitInstList sig b2 ⟨subContext s.context (pyKeys im), Graph.empty⟩
        = .ok sElse ∧
      s'.graph.nodes = g2.nodes ++
        [.opNode "builtin/switch", .constNode (.graphV sIf.graph),
         .constNode (.graphV sElse.graph), .opNode "builtin/eval"] ∧
      s'.graph.edges = g2.edges ++
        ⟨cp, ⟨g2.nodes.length, "pred"⟩⟩ ::
        ⟨⟨g2.nodes.length + 1, "value"⟩, ⟨g2.nodes.length, "if_true"⟩⟩ ::
        ⟨⟨g2.nodes.length + 2, "value"⟩, ⟨g2.nodes.length, "if_false"⟩⟩ ::
        ⟨⟨g2.nodes.length, "value"⟩, ⟨g2.nodes.length + 3, "thunk"⟩⟩ ::
        im.map (fun kw => ⟨kw.2, ⟨g2.nodes.length + 3, kw.1⟩⟩) ∧
      s'.context.output_vars = pyInsert s.context.output_vars t
        (g2.nodes.length + 3,
         ⟨pyKeys im, pyUnion sIf.graph.outputs sElse.graph.outputs, none⟩) ∧
      (∀ x, x ∈ pyUnion sIf.graph.outputs sElse.graph.outputs ↔
        (x ∈ sIf.graph.outputs ∨ x ∈ sElse.graph.outputs)) := by
  obtain ⟨cp, cps, g1, im, g2, sIf, sElse, h1, h2, h3, h4, h5⟩ :=
    ifBlock_decomp sig t c ins b1 b2 s s' h
  subst h5
  exact ⟨cp, cps, g1, im, g2, sIf, sElse, h1, h2, h3, h4, rfl, rfl, rfl,
    fun x => mem_pyUnion _ _ x⟩

/-- C5 witness: the decomposition observed on the concrete program
`r = if p () [ output(v = 1) ] else [ output(v = 2) ]`. -/
theorem C5_if_switch_eval_witness :
    ∃ cp cps g1 im g2 sIf sElse,
      visitOutport [] ctxCond (.thunkable (.ident "p")) Graph.empty =
        .ok (cp :: cps, g1) ∧
      visitInputs [] ctxCond none g1 = .ok (im, g2) ∧
      visitInstList [] [.outputCall (.named [("v", .constO (.intC 1))])]
        ⟨subContext ctxCond (pyKeys im), Graph.empty⟩ = .ok sIf ∧
      visitInstList [] [.outputCall (.named [("v", .constO (.intC 2))])]
        ⟨subContext ctxCond (pyKeys im), Graph.empty⟩ = .ok sElse ∧
      resCond.graph.nodes = g2.nodes ++
        [.opNode "builtin/switch", .constNode (.graphV sIf.graph),
         .constNode (.graphV sElse.graph), .opNode "builtin/eval"] ∧
      resCond.graph.edges = g2.edges ++
        ⟨cp, ⟨g2.nodes.length, "pred"⟩⟩ ::
        ⟨⟨g2.nodes.length + 1, "value"⟩, ⟨g2.nodes.length, "if_true"⟩⟩ ::
        ⟨⟨g2.nodes.length + 2, "value"⟩, ⟨g2.nodes.length, "if_false"⟩⟩ ::
        ⟨⟨g2.nodes.length, "value"⟩, ⟨g2.nodes.length + 3, "thunk"⟩⟩ ::
        im.map (fun kw => ⟨kw.2, ⟨g2.nodes.length + 3, kw.1⟩⟩) ∧
      resCond.context.output_vars = pyInsert ctxCond.output_vars "r"
        (g2.nodes.length + 3,
         ⟨pyKeys im, pyUnion sIf.graph.outputs sElse.graph.outputs, none⟩) ∧
      (∀ x, x ∈ pyUnion sIf.graph.outputs sElse.graph.outputs ↔
        (x ∈ sIf.graph.outputs ∨ x ∈ sElse.graph.outputs)) :=
  C5_if_switch_eval [] "r" (.thunkable (.ident "p")) none
    [.outputCall (.named [("v", .constO (.intC 1))])]
    [.outputCall (.named [("v", .constO (.intC 2))])]
    ⟨ctxCond, Graph.empty⟩ resCond
    (by rw [visitInst]
        simp [visitOutport, visitThunkable_port, visitInputs, visitInstList,
          visitInst, visitArglist, visitNamed_map, visitPort_maps,
          visitPort_map, visitConst_, subContext, pyKeys, pyMem, pyLookup,
          pyDict, pyInsert, pyUnion, firstDedup, firstDedupAux,
          Graph.outputs, Graph.inputPort, Graph.set_outputs,
          Graph.wireKwargs, Graph.addEdge, Graph.add_node, Graph.addNodeRaw,
          Graph.empty, outputNodeRef, inputNodeRef, Bind.bind, Except.bind,
          pure, Except.pure, ctxCond, resCond, gBr1, gBr2])

/-- C6: lowering `target = loop (inputs) [body] while [cond]` emits
exactly one `builtin/loop` node receiving the lowered condition
sub-graph on port `condition` (via its carrying constant node), the
lowered body sub-graph on port `body`, and the named inputs on their
given port names; the signature bound at the target has as outputs
exactly the output port set of the body sub-graph. -/
theorem C6_loop_node (sig : RuntimeSignature) (t : String)
    (ins : Option (List (String × Outport))) (body condition : List Inst)
    (s s' : VisitorState)
    (h : visitInst sig (.loopInst t ins body condition) s = .ok s') :
    ∃ im g1 sBody sCond,
      visitInputs sig s.context ins s.graph = .ok (im, g1) ∧
      visitInstList sig body ⟨subContext s.context (pyKeys im), Graph.empty⟩
        = .ok sBody ∧
      visitInstList sig condition
        ⟨subContext s.context (pyKeys im), Graph.empty⟩ = .ok sCond ∧
      s'.graph.nodes = g1.nodes ++
        [.opNode "builtin/loop", .constNode (.graphV sCond.graph),
         .constNode (.graphV sBody.graph)] ∧
      s'.graph.edges = g1.edges ++
        ⟨⟨g1.nodes.length + 1, "value"⟩, ⟨g1.nodes.length, "condition"⟩⟩ ::
        ⟨⟨g1.nodes.length + 2, "value"⟩, ⟨g1.nodes.length, "body"⟩⟩ ::
        im.map (fun kw => ⟨kw.2, ⟨g1.nodes.length, kw.1⟩⟩) ∧
      s'.context.output_vars = pyInsert s.context.output_vars t
        (g1.nodes.length, ⟨pyKeys im, sBody.graph.outputs, none⟩) := by
  obtain ⟨im, g1, sBody, sCond, h1, h2, h3, h4⟩ :=
    loop_decomp sig t ins body condition s s' h
  subst h4
  exact ⟨im, g1, sBody, sCond, h1, h2, h3, rfl, rfl, rfl⟩

/-- C6 witness: the decomposition observed on the concrete program
`r = loop (x = 0) [ output(x = 1) ] while [ output(pred = true) ]`. -/
theorem C6_loop_node_witness :
    ∃ im g1 sBody sCond,
      visitInputs [] ({} : Context) (some [("x", .constO (.intC 0))])
        Graph.empty = .ok (im, g1) ∧
      visitInstList [] [.outputCall (.named [("x", .constO (.intC 1))])]
        ⟨subContext {} (pyKeys im), Graph.empty⟩ = .ok sBody ∧
      visitInstList [] [.outputCall (.named [("pred", .constO (.boolC true))])]
        ⟨subContext {} (pyKeys im), Graph.empty⟩ = .ok sCond ∧
      resLoop.graph.nodes = g1.nodes ++
        [.opNode "builtin/loop", .constNode (.graphV sCond.graph),
         .constNode (.graphV sBody.graph)] ∧
      resLoop.graph.edges = g1.edges ++
        ⟨⟨g1.nodes.length + 1, "value"⟩, ⟨g1.nodes.length, "condition"⟩⟩ ::
        ⟨⟨g1.nodes.length + 2, "value"⟩, ⟨g1.nodes.length, "body"⟩⟩ ::
        im.map (fun kw => ⟨kw.2, ⟨g1.nodes.length, kw.1⟩⟩) ∧
      resLoop.context.output_vars = pyInsert ({} : Context).output_vars "r"
        (g1.nodes.length, ⟨pyKeys im, sBody.graph.outputs, none⟩) :=
  C6_loop_node [] "r" (some [("x", .constO (.intC 0))])
    [.outputCall (.named [("x", .constO (.intC 1))])]
    [.outputCall (.named [("pred", .constO (.boolC true))])]
    ⟨{}, Graph.empty⟩ resLoop
    (by rw [visitInst]
        simp [visitInputs, visitNamed_map, visitPort_maps, visitPort_map,
          visitOutport, visitConst_, visitInstList, visitInst, visitArglist,
          subContext, pyKeys, pyMem, pyLookup, pyDict, pyInsert, firstDedup,
          firstDedupAux, Graph.outputs, Graph.set_outputs, Graph.wireKwargs,
          Graph.addEdge, Graph.add_node, Graph.addNodeRaw, Graph.empty,
          outputNodeRef, Bind.bind, Except.bind, pure, Except.pure, resLoop,
          gLoopBody, gLoopCond])

/-- C4 counterexample: for `r = if p () [] else []` — whose condition
resolves to an existing boundary port and which has no inputs — the
claim admits only the switch/eval pair (two nodes), but lowering adds
four nodes: the switch, the two constant nodes carrying the branch
graphs, and the eval. -/
theorem C4_counterexample :
    visitInst [] (.ifBlock "r" (.thunkable (.ident "p")) none [] [])
      ⟨ctxPred, Graph.empty⟩ =
      .ok ⟨{ ctxPred with output_vars := [("r", (5, ⟨[], [], none⟩))] },
           gPredIf⟩
  ∧ gPredIf.nodes.length = Graph.empty.nodes.length + 4
  ∧ gPredIf.nodes.length ≠ Graph.empty.nodes.length + 2 := by
  refine ⟨?_, by decide, by decide⟩
  rw [visitInst]
  simp [visitOutport, visitThunkable_port, visitInputs, visitInstList,
    subContext, pyKeys, pyMem, pyLookup, pyDict, pyInsert, pyUnion,
    firstDedup, firstDedupAux, Graph.outputs, Graph.inputPort,
    Graph.add_node, Graph.addNodeRaw, Graph.wireKwargs, Graph.addEdge,
    Graph.empty, inputNodeRef, Bind.bind, Except.bind, pure, Except.pure,
    ctxPred, gPredIf]

/-- C4 (amended): lowering a nested block leaves every parent context
table unchanged — functions, constants, aliases, inputs, outputs are
equal afterwards, and output_vars is changed only at the assignment
target — and the nodes added to the parent graph are those produced by
resolving the condition and the named inputs plus, for an `if`,
exactly the switch node, the two constant nodes carrying the branch
graphs, and the eval node; for a loop, exactly the loop node and the
two constant nodes carrying the condition and body graphs. -/
theorem C4_parent_frame (sig : RuntimeSignature) :
    (∀ (t : String) (c : Outport) (ins : Option (List (String × Outport)))
        (b1 b2 : List Inst) (s s' : VisitorState),
      visitInst sig (.ifBlock t c ins b1 b2) s = .ok s' →
      s'.context.functions = s.context.functions ∧
      s'.context.constants = s.context.constants ∧
      s'.context.aliases = s.context.aliases ∧
      s'.context.inputs = s.context.inputs ∧
      s'.context.outputs = s.context.outputs ∧
      (∀ x, x ≠ t → pyLookup s'.context.output_vars x =
        pyLookup s.context.output_vars x) ∧
      ∃ cp cps g1 im g2 gIf gElse,
        visitOutport sig s.context c s.graph = .ok (cp :: cps, g1) ∧
        visitInputs sig s.context ins g1 = .ok (im, g2) ∧
        s'.graph.nodes = g2.nodes ++
          [.opNode "builtin/switch", .constNode (.graphV gIf),
           .constNode (.graphV gElse), .opNode "builtin/eval"])
  ∧ (∀ (t : String) (ins : Option (List (String × Outport)))
        (body cond : List Inst) (s s' : VisitorState),
      visitInst sig (.loopInst t ins body cond) s = .ok s' →
      s'.context.functions = s.context.functions ∧
      s'.context.constants = s.context.constants ∧
      s'.context.aliases = s.context.aliases ∧
      s'.context.inputs = s.context.inputs ∧
      s'.context.outputs = s.context.outputs ∧
      (∀ x, x ≠ t → pyLookup s'.context.output_vars x =
        pyLookup s.context.output_vars x) ∧
      ∃ im g1 gCond gBody,
        visitInputs sig s.context ins s.graph = .ok (im, g1) ∧
        s'.graph.nodes = g1.nodes ++
          [.opNode "builtin/loop", .constNode (.graphV gCond),
           .constNode (.graphV gBody)]) := by
  constructor
  · intro t c ins b1 b2 s s' h
    obtain ⟨cp, cps, g1, im, g2, sIf, sElse, h1, h2, _, _, h5⟩ :=
      ifBlock_decomp sig t c ins b1 b2 s s' h
    subst h5
    refine ⟨rfl, rfl, rfl, rfl, rfl, ?_,
      cp, cps, g1, im, g2, sIf.graph, sElse.graph, h1, h2, rfl⟩
    intro x hx
    exact pyLookup_pyInsert_ne _ _ _ _ (Ne.symm hx)
  · intro t ins body cond s s' h
    obtain ⟨im, g1, sBody, sCond, h1, _, _, h4⟩ :=
      loop_decomp sig t ins body cond s s' h
    subst h4
    refine ⟨rfl, rfl, rfl, rfl, rfl, ?_,
      im, g1, sCond.graph, sBody.graph, h1, rfl⟩
    intro x hx
    exact pyLookup_pyInsert_ne _ _ _ _ (Ne.symm hx)

/-- C4 witness: the parent's aliases survive an `if` lowering and the
parent's functions survive a loop lowering, on concrete programs. -/
theorem C4_parent_frame_witness :
    resFrameIf.context.aliases = ctxFrameIf.aliases
  ∧ resFrameLoop.context.functions = ctxFrameLoop.functions :=
  ⟨((C4_parent_frame []).1 "x" (.thunkable (.ident "q")) none [] []
      ⟨ctxFrameIf, Graph.empty⟩ resFrameIf
      (by rw [visitInst]
          simp [visitOutport, visitThunkable_port, visitInputs,
            visitInstList, subContext, pyKeys, pyMem, pyLookup, pyDict,
            pyInsert, pyUnion, firstDedup, firstDedupAux, Graph.outputs,
            Graph.inputPort, Graph.add_node, Graph.addNodeRaw,
            Graph.wireKwargs, Graph.addEdge, Graph.empty, inputNodeRef,
            Bind.bind, Except.bind, pure, Except.pure, ctxFrameIf,
            resFrameIf])).2.2.1,
   ((C4_parent_frame []).2 "w" none [] []
      ⟨ctxFrameLoop, Graph.empty⟩ resFrameLoop
      (by rw [visitInst]
          simp [visitInputs, visitInstList, subContext, pyKeys, pyLookup,
            pyDict, pyInsert, firstDedup, firstDedupAux, Graph.outputs,
            Graph.add_node, Graph.addNodeRaw, Graph.wireKwargs,
            Graph.addEdge, Graph.empty, Bind.bind, Except.bind, pure,
            Except.pure, ctxFrameLoop, resFrameLoop])).1⟩

end Tksl
